import Mathlib

/-!
Verification of the non-adiabatic coupling core of qmflows-namd
(`nac/integrals/nonAdiabaticCoupling.py`).

The embedding works in exact arithmetic (ℚ) over a shallow model of the
source functions.  Python exceptions (IndexError, NameError, ValueError,
ZeroDivisionError) are modelled by `Option`: `none` means the Python code
raises.  The float transcendentals (`math.sqrt`, `math.pi`, `np.exp`) and
the external compiled kernel `obaraSaikaMultipole` are abstracted as
parameters, since no claim settled here depends on their numeric values.
-/

open Matrix

namespace QmflowsNAMD

/-- Modelled from the spec: `AtomXYZ` is the named tuple `(symbol, xyz)`
provided by `nac.common`, whose source is not included here; the spec's
AtomCoordinate is "(element symbol: string, position: 3-vector of reals)". -/
structure AtomXYZ where
  symbol : String
  xyz : Fin 3 → ℚ

/-- A contracted Gaussian function, as consumed by the source: a pair of
lists `(coefficients, exponents)` (the `primitives` field unpacked as
`csi, esi = ps_i`) plus the angular-momentum label `orbType`. -/
structure CGF where
  primitives : List ℚ × List ℚ
  orbType : String
  deriving DecidableEq

/-- The abstracted float operations used by `sab_unfolded`
(`math.sqrt`, `np.exp`, `math.pi`); their values are irrelevant to every
claim settled in this file. -/
structure FloatOps where
  sqrt : ℚ → ℚ
  exp : ℚ → ℚ
  pi : ℚ

/-- Modelled from the spec: the external primitive evaluator
`obaraSaikaMultipole` (compiled module `multipoleObaraSaika`, not part of the
sources).  Spec §4.2 treats it as a black-box real function of the
per-axis arguments `(p, s00, rpa, rpb, rp, l1, l2, multipole-order)`. -/
def OSMFun : Type := ℚ → ℚ → ℚ → ℚ → ℚ → ℚ → ℚ → ℚ → ℚ

/-- Modelled from the spec: `calcOrbType_Components` lives in
`nac/integrals/multipoleIntegrals.py`, which is not among the given sources.
Per spec §3/§4.2 it maps an angular-momentum label (`S`, `Px`, `Dxx`, ...)
to the per-axis angular-momentum component, i.e. the exponent of x, y or z
in the Cartesian monomial named by the tag. -/
def calcOrbType_Components (label : String) (axis : Fin 3) : ℚ :=
  let c : Char := if axis = 0 then 'x' else if axis = 1 then 'y' else 'z'
  ((label.toList.countP fun d => d = c) : ℚ)

/-- Python list indexing `xs[i]` for an integer index: negative indices wrap
from the end, out-of-range indexing raises IndexError (`none`). -/
def pyGet {α : Type} (xs : List α) (i : ℤ) : Option α :=
  let j : ℤ := if i < 0 then (xs.length : ℤ) + i else i
  if 0 ≤ j then xs.get? j.toNat else none

/-- `dim` as computed on line 49 of the source:
`sum(cgfs_per_atoms[at[0]] for at in mol0)`. -/
def molDim (dictCGFs : String → List CGF) (atoms : List AtomXYZ) : ℕ :=
  (atoms.map fun a => (dictCGFs a.symbol).length).sum

/-- The `for s, xyz in atoms` loop of `lookup_cgf` (source lines 192-199):
`acc` accumulates the per-atom CGF counts; the loop breaks at the first atom
where `(acc - 1) // i != 0`, yielding that atom's coordinate and the local
index `length - (acc - i)`.  Python `//` is floored division, hence
`Int.fdiv`.  Falling off the loop leaves `index` unbound, so the subsequent
`return` raises NameError (`none`). -/
def lookup_loop (dictCGFs : String → List CGF) (i : ℤ) :
    List AtomXYZ → ℤ → Option ((Fin 3 → ℚ) × ℤ)
  | [], _ => none
  | a :: rest, acc =>
    let length : ℤ := ((dictCGFs a.symbol).length : ℤ)
    let acc' := acc + length
    if (acc' - 1).fdiv i ≠ 0 then some (a.xyz, length - (acc' - i))
    else lookup_loop dictCGFs i rest acc'

/-- `lookup_cgf` (source lines 178-201).  For `i = 0` it returns the first
CGF of the first atom; otherwise it runs the accumulator loop and then
evaluates `dictCGFs[atoms[0].symbol][index]` — note: the basis list of the
FIRST atom's symbol, not the owning atom's. -/
def lookup_cgf (atoms : List AtomXYZ) (dictCGFs : String → List CGF)
    (i : ℤ) : Option ((Fin 3 → ℚ) × CGF) :=
  if i = 0 then
    atoms.head?.bind fun a0 =>
      (pyGet (dictCGFs a0.symbol) 0).map fun c => (a0.xyz, c)
  else
    (lookup_loop dictCGFs i atoms 0).bind fun r =>
      atoms.head?.bind fun a0 =>
        (pyGet (dictCGFs a0.symbol) r.2).map fun c => (r.1, c)

/-- Modelled from the spec (§4.1, §9): the correct prefix-sum resolution of
a flat index into (owning atom, local CGF offset): walk the atom sequence,
each atom owning a contiguous block of `|basis[symbol]|` indices. -/
def specFind (dictCGFs : String → List CGF) :
    List AtomXYZ → ℕ → Option (AtomXYZ × ℕ)
  | [], _ => none
  | a :: rest, j =>
    if j < (dictCGFs a.symbol).length then some (a, j)
    else specFind dictCGFs rest (j - (dictCGFs a.symbol).length)

/-- Modelled from the spec (§4.1): `lookup(i)` must return the coordinate of
the atom owning block `i` together with the i-th-within-block CGF of that
atom's OWN basis list. -/
def lookup_cgf_spec (atoms : List AtomXYZ) (dictCGFs : String → List CGF)
    (j : ℕ) : Option ((Fin 3 → ℚ) × CGF) :=
  (specFind dictCGFs atoms j).bind fun r =>
    ((dictCGFs r.1.symbol).get? r.2).map fun c => (r.1.xyz, c)

/-- Sequencing of fallible element computations, as a Python loop that
raises as soon as one element raises: the `Option`-valued traversal used to
model `map`/comprehension loops below. -/
def traverseOption {α β : Type} (f : α → Option β) : List α → Option (List β)
  | [] => some []
  | x :: xs => (f x).bind fun y => (traverseOption f xs).map fun ys => y :: ys

@[simp] theorem traverseOption_nil {α β : Type} (f : α → Option β) :
    traverseOption f [] = some [] := rfl

@[simp] theorem traverseOption_cons {α β : Type} (f : α → Option β)
    (x : α) (xs : List α) :
    traverseOption f (x :: xs) =
      (f x).bind fun y => (traverseOption f xs).map fun ys => y :: ys := rfl

/-- `sab_unfolded` (source lines 157-175): the contraction-coefficient
product times the per-axis product of the external evaluator.  `fops`
abstracts the float transcendentals, `osm` abstracts
`obaraSaikaMultipole`; everything else follows the source line by line. -/
def sab_unfolded (fops : FloatOps) (osm : OSMFun)
    (r1 r2 ls1 ls2 : Fin 3 → ℚ) (c1 c2 e1 e2 : ℚ) : ℚ :=
  let cte := fops.sqrt (fops.pi / (e1 + e2))
  let u := e1 * e2 / (e1 + e2)
  let p := 1 / (2 * (e1 + e2))
  let rp := fun a : Fin 3 => (e1 * r1 a + e2 * r2 a) / (e1 + e2)
  let rab := fun a : Fin 3 => r1 a - r2 a
  let rpa := fun a : Fin 3 => rp a - r1 a
  let rpb := fun a : Fin 3 => rp a - r2 a
  let s00 := fun a : Fin 3 => cte * fops.exp (-(u * rab a ^ 2))
  c1 * c2 * ∏ a : Fin 3, osm p (s00 a) (rpa a) (rpb a) (rp a) (ls1 a) (ls2 a) 0

/-- `apply_contraction` (source lines 140-154).  The source builds
`mtx = np.stack([csi, csj, esi, esj])` — which raises ValueError (`none`)
unless the four lists have equal length — and then sums `sab_unfolded`
over the COLUMNS of `mtx`, i.e. over positionally zipped primitive
quadruples `(csi[k], csj[k], esi[k], esj[k])`. -/
def apply_contraction (fops : FloatOps) (osm : OSMFun)
    (xyz_0 xyz_1 : Fin 3 → ℚ) (li lj : String)
    (ps_i ps_j : List ℚ × List ℚ) : Option ℚ :=
  let csi := ps_i.1
  let esi := ps_i.2
  let csj := ps_j.1
  let esj := ps_j.2
  let ls_i := fun a : Fin 3 => calcOrbType_Components li a
  let ls_j := fun a : Fin 3 => calcOrbType_Components lj a
  if csj.length = csi.length ∧ esi.length = csi.length ∧
      esj.length = csi.length then
    some (List.sum (List.zipWith
      (fun ce1 ce2 =>
        sab_unfolded fops osm xyz_0 xyz_1 ls_i ls_j ce1.1 ce2.1 ce1.2 ce2.2)
      (csi.zip esi) (csj.zip esj)))
  else none

/-- Modelled from the spec (§4.2, §4.3): the contraction-level overlap as
the FULL double sum over all primitive pairs — every primitive of the first
CGF against every primitive of the second — each pair contributing the
product of its two contraction coefficients and the evaluator's per-axis
product (which is exactly `sab_unfolded`); defined for any two primitive
lists, also of different lengths. -/
def apply_contraction_spec (fops : FloatOps) (osm : OSMFun)
    (xyz_0 xyz_1 : Fin 3 → ℚ) (li lj : String)
    (ps_i ps_j : List ℚ × List ℚ) : ℚ :=
  let ls_i := fun a : Fin 3 => calcOrbType_Components li a
  let ls_j := fun a : Fin 3 => calcOrbType_Components lj a
  List.sum ((ps_i.1.zip ps_i.2).map fun ce1 =>
    List.sum ((ps_j.1.zip ps_j.2).map fun ce2 =>
      sab_unfolded fops osm xyz_0 xyz_1 ls_i ls_j ce1.1 ce2.1 ce1.2 ce2.2))

/-- `calc_overlap_atom` (source lines 123-137): the overlaps of `cgf_i`
against every CGF of one atom of `mol1`;  a raised contraction
(`none`) propagates. -/
def calc_overlap_atom (fops : FloatOps) (osm : OSMFun)
    (xyz_0 : Fin 3 → ℚ) (cgf_i : CGF) (xyz_1 : Fin 3 → ℚ)
    (cgfs_atom_j : List CGF) : Option (List ℚ) :=
  traverseOption (fun cgf_j =>
    apply_contraction fops osm xyz_0 xyz_1 cgf_i.orbType cgf_j.orbType
      cgf_i.primitives cgf_j.primitives) cgfs_atom_j

/-- `calc_overlap_row` (source lines 103-120): one row of the overlap
matrix, the per-atom slices written consecutively into the row buffer —
here the concatenation of the per-atom result lists. -/
def calc_overlap_row (fops : FloatOps) (osm : OSMFun)
    (dictCGFs : String → List CGF) (mol1 : List AtomXYZ)
    (xyz_0 : Fin 3 → ℚ) (cgf_i : CGF) : Option (List ℚ) :=
  (traverseOption (fun at1 =>
    calc_overlap_atom fops osm xyz_0 cgf_i at1.xyz
      (dictCGFs at1.symbol)) mol1).map List.flatten

/-- The row map of `calcOverlapMtx` (source lines 82-88):
`apply_nested fun_overlap fun_lookup i` for every `i in range(dim)`;
a raised lookup or row computation (`none`) aborts the build. -/
def buildRowList (fops : FloatOps) (osm : OSMFun)
    (dictCGFs : String → List CGF) (dim : ℕ)
    (mol0 mol1 : List AtomXYZ) : Option (List (List ℚ)) :=
  traverseOption (fun i =>
    (lookup_cgf mol0 dictCGFs (i : ℤ)).bind fun r =>
      calc_overlap_row fops osm dictCGFs mol1 r.1 r.2) (List.range dim)

/-- `calcOverlapMtx` (source lines 74-96): stack the rows into the raw
Cartesian matrix `suv`; with a transformation matrix return
`trans_mtx · suv · trans_mtxᵗ`, otherwise `suv` itself. -/
def calcOverlapMtx (fops : FloatOps) (osm : OSMFun)
    (dictCGFs : String → List CGF) (dim : ℕ)
    (trans_mtx : Option (Matrix (Fin dim) (Fin dim) ℚ))
    (mol0 mol1 : List AtomXYZ) : Option (Matrix (Fin dim) (Fin dim) ℚ) :=
  (buildRowList fops osm dictCGFs dim mol0 mol1).map fun xss =>
    let suv : Matrix (Fin dim) (Fin dim) ℚ :=
      Matrix.of fun i j => (((xss.get? i).bind fun r => r.get? j).getD 0)
    match trans_mtx with
    | some t => t * suv * tᵀ
    | none => suv

/-- `calculate_overlap` (source lines 65-71):
`np.dot(css0.T, np.dot(suv, css1))`. -/
def calculate_overlap {dim nst : ℕ} (suv : Matrix (Fin dim) (Fin dim) ℚ)
    (css0 css1 : Matrix (Fin dim) (Fin nst) ℚ) :
    Matrix (Fin nst) (Fin nst) ℚ :=
  css0ᵀ * (suv * css1)

/-- `calculateCoupling3Points` (source lines 22-62).  `dim` is derived from
`mol0` and the basis dictionary; the two overlap builds come first, then
the four projections and the three-point combination.  The only failure
the final arithmetic can raise in Python is ZeroDivisionError from
`1.0 / (4.0 * dt)` when `dt = 0`, modelled by the `dt = 0` branch. -/
def calculateCoupling3Points (fops : FloatOps) (osm : OSMFun)
    (mol0 mol1 mol2 : List AtomXYZ) (dictCGFs : String → List CGF)
    {nst : ℕ}
    (css0 css1 css2 : Matrix (Fin (molDim dictCGFs mol0)) (Fin nst) ℚ)
    (dt : ℚ)
    (trans_mtx : Option (Matrix (Fin (molDim dictCGFs mol0))
      (Fin (molDim dictCGFs mol0)) ℚ)) :
    Option (Matrix (Fin nst) (Fin nst) ℚ) :=
  (calcOverlapMtx fops osm dictCGFs (molDim dictCGFs mol0) trans_mtx
      mol0 mol1).bind fun suv_0 =>
    (calcOverlapMtx fops osm dictCGFs (molDim dictCGFs mol0) trans_mtx
        mol1 mol2).bind fun suv_1 =>
      let suv_0_t := suv_0ᵀ
      let suv_1_t := suv_1ᵀ
      let mtx_sji_t0 := calculate_overlap suv_0 css0 css1
      let mtx_sji_t1 := calculate_overlap suv_1 css1 css2
      let mtx_sij_t0 := calculate_overlap suv_0_t css1 css0
      let mtx_sij_t1 := calculate_overlap suv_1_t css2 css1
      if dt = 0 then none
      else
        let cte := 1 / (4 * dt)
        some (cte • ((3 : ℚ) • (mtx_sji_t1 - mtx_sij_t1) +
          (mtx_sij_t0 - mtx_sji_t0)))

/-- Modelled from the spec (§4.5): the three-point estimator written with
spec's `project(S, C0, C1) = C0ᵗ·S·C1`:
`[3·(Sji_t1 − Sij_t1) + (Sij_t0 − Sji_t0)] / (4·dt)`. -/
def estimateCoupling_spec {dim nst : ℕ}
    (S0 S1 : Matrix (Fin dim) (Fin dim) ℚ)
    (cssPrev cssCurr cssNext : Matrix (Fin dim) (Fin nst) ℚ)
    (dt : ℚ) : Matrix (Fin nst) (Fin nst) ℚ :=
  let sji_t0 := cssPrevᵀ * S0 * cssCurr
  let sij_t0 := cssCurrᵀ * S0ᵀ * cssPrev
  let sji_t1 := cssCurrᵀ * S1 * cssNext
  let sij_t1 := cssNextᵀ * S1ᵀ * cssCurr
  (1 / (4 * dt)) • ((3 : ℚ) • (sji_t1 - sij_t1) + (sij_t0 - sji_t0))

/-! ## Basis-index lookup: correctness analysis -/

/-- If the prefix-sum search succeeds, the owning atom is in the list and
the local offset is inside that atom's basis list. -/
theorem specFind_mem (dictCGFs : String → List CGF) :
    ∀ (atoms : List AtomXYZ) (j : ℕ) (a : AtomXYZ) (k : ℕ),
      specFind dictCGFs atoms j = some (a, k) →
      a ∈ atoms ∧ k < (dictCGFs a.symbol).length
  | [], _, _, _, h => by simp [specFind] at h
  | b :: rest, j, a, k, h => by
    by_cases hj : j < (dictCGFs b.symbol).length
    · rw [specFind, if_pos hj] at h
      obtain ⟨rfl, rfl⟩ : b = a ∧ j = k := by
        simpa using h
      exact ⟨List.mem_cons_self _ _, hj⟩
    · rw [specFind, if_neg hj] at h
      obtain ⟨hmem, hk⟩ := specFind_mem dictCGFs rest _ a k h
      exact ⟨List.mem_cons_of_mem _ hmem, hk⟩

/-- The accumulator loop of `lookup_cgf` does find the owning atom and the
correct local offset, for any basis in which every atom has at least one
CGF: on the loop itself the `(acc - 1) // i` break test agrees with the
prefix-sum search.  (The defect of `lookup_cgf` is downstream of the loop,
in which list the local offset is then applied to.) -/
theorem lookup_loop_correct (dictCGFs : String → List CGF) (i : ℤ)
    (hi : 1 ≤ i) (atoms : List AtomXYZ) :
    ∀ acc : ℤ, 0 ≤ acc → acc ≤ i →
      (∀ a ∈ atoms, 0 < (dictCGFs a.symbol).length) →
      i < acc + ((atoms.map fun a => ((dictCGFs a.symbol).length : ℤ)).sum) →
      ∃ a k, specFind dictCGFs atoms (i - acc).toNat = some (a, k) ∧
        lookup_loop dictCGFs i atoms acc = some (a.xyz, (k : ℤ)) := by
  induction atoms with
  | nil =>
    intro acc _ hle _ hlt
    simp only [List.map_nil, List.sum_nil, add_zero] at hlt
    omega
  | cons a rest ih =>
    intro acc h0 hle hpos hlt
    have hL : 0 < (dictCGFs a.symbol).length := hpos a (List.mem_cons_self _ _)
    set L : ℤ := ((dictCGFs a.symbol).length : ℤ) with hLdef
    by_cases hcase : i < acc + L
    · -- the current atom owns index i: the loop breaks here
      have hfd : (acc + L - 1).fdiv i ≠ 0 := by
        have h1 : i ≤ acc + L - 1 := by omega
        have h2 : (acc + L - 1).fdiv i = (acc + L - 1) / i :=
          Int.fdiv_eq_ediv _ (by omega)
        have h3 : 1 ≤ (acc + L - 1) / i := by
          rw [Int.le_ediv_iff_mul_le (by omega : (0:ℤ) < i)]
          omega
        omega
      refine ⟨a, (i - acc).toNat, ?_, ?_⟩
      · rw [specFind, if_pos (by omega : (i - acc).toNat <
          (dictCGFs a.symbol).length)]
      · rw [lookup_loop, if_pos hfd]
        have : L - (acc + L - i) = ((i - acc).toNat : ℤ) := by omega
        rw [this]
    · -- i lies beyond this atom's block: the loop continues
      have hfd : (acc + L - 1).fdiv i = 0 := by
        have h2 : (acc + L - 1).fdiv i = (acc + L - 1) / i :=
          Int.fdiv_eq_ediv _ (by omega)
        rw [h2]
        exact Int.ediv_eq_zero_of_lt (by omega) (by omega)
      obtain ⟨b, k, hfind, hloop⟩ :=
        ih (acc + L) (by omega) (by omega)
          (fun x hx => hpos x (List.mem_cons_of_mem _ hx))
          (by
            simp only [List.map_cons, List.sum_cons] at hlt
            omega)
      refine ⟨b, k, ?_, ?_⟩
      · rw [specFind, if_neg (by omega : ¬ (i - acc).toNat <
          (dictCGFs a.symbol).length)]
        have : (i - acc).toNat - (dictCGFs a.symbol).length =
            (i - (acc + L)).toNat := by omega
        rw [this]
        exact hfind
      · rw [lookup_loop, if_neg (by simpa using hfd)]
        exact hloop

theorem molDim_cast (dictCGFs : String → List CGF) (atoms : List AtomXYZ) :
    ((molDim dictCGFs atoms : ℤ)) =
      ((atoms.map fun a => ((dictCGFs a.symbol).length : ℤ)).sum) := by
  unfold molDim
  induction atoms with
  | nil => simp
  | cons a rest ih => simp_all

/-- C10: on a molecule whose atoms all carry one element symbol (hence one
shared per-atom CGF list), `lookup_cgf` agrees with the spec's prefix-sum
lookup at every global index `i ∈ [0, dim)`: the `(acc - 1) // i` break
test and the `length - (acc - i)` local offset are correct there, so any
incorrectness of the lookup is confined to molecules with more than one
element symbol. -/
theorem lookup_cgf_uniform_symbols_correct (dictCGFs : String → List CGF)
    (s : String) (atoms : List AtomXYZ) (hu : ∀ a ∈ atoms, a.symbol = s)
    (i : ℤ) (h0 : 0 ≤ i) (hdim : i < (molDim dictCGFs atoms : ℤ)) :
    lookup_cgf atoms dictCGFs i = lookup_cgf_spec atoms dictCGFs i.toNat := by
  cases atoms with
  | nil => simp [molDim] at hdim; omega
  | cons a rest =>
    have hsym : ∀ b ∈ a :: rest, dictCGFs b.symbol = dictCGFs s :=
      fun b hb => by rw [hu b hb]
    have hL : 0 < (dictCGFs s).length := by
      rcases Nat.eq_zero_or_pos (dictCGFs s).length with hz | hp
      · exfalso
        have : molDim dictCGFs (a :: rest) = 0 := by
          unfold molDim
          apply List.sum_eq_zero
          intro x hx
          simp only [List.mem_map] at hx
          obtain ⟨b, hb, rfl⟩ := hx
          rw [hsym b hb, hz]
        omega
      · exact hp
    by_cases hi0 : i = 0
    · subst hi0
      obtain ⟨c0, hc0⟩ : ∃ c, (dictCGFs a.symbol).get? 0 = some c := by
        rw [hsym a (List.mem_cons_self _ _)]
        exact ⟨_, List.get?_eq_get hL⟩
      have hfa : specFind dictCGFs (a :: rest) 0 = some (a, 0) := by
        rw [specFind, if_pos (by rw [hsym a (List.mem_cons_self _ _)]; omega)]
      simp [lookup_cgf, lookup_cgf_spec, pyGet, hfa, hc0]
    · have hi : 1 ≤ i := by omega
      obtain ⟨b, k, hfind, hloop⟩ :=
        lookup_loop_correct dictCGFs i hi (a :: rest) 0 le_rfl h0
          (fun x hx => by rw [hsym x hx]; exact hL)
          (by rw [← molDim_cast]; omega)
      rw [sub_zero] at hfind
      obtain ⟨hbmem, hk⟩ := specFind_mem dictCGFs _ _ _ _ hfind
      obtain ⟨c, hc⟩ : ∃ c, (dictCGFs b.symbol).get? k = some c :=
        ⟨_, List.get?_eq_get hk⟩
      have hca : (dictCGFs a.symbol).get? k = some c := by
        rw [hsym a (List.mem_cons_self _ _), ← hsym b hbmem]
        exact hc
      rw [lookup_cgf, if_neg hi0, hloop]
      rw [lookup_cgf_spec, hfind]
      have hknn : ¬((k : ℤ) < 0) := by omega
      simp only [Option.some_bind, List.head?_cons]
      simp only [pyGet, if_neg hknn, if_pos (by omega : (0:ℤ) ≤ (k:ℤ)),
        Int.toNat_natCast]
      rw [hsym a (List.mem_cons_self _ _), ← hsym b hbmem]

/-- Atoms and basis mapping exhibiting the `lookup_cgf` defect: atom `A`
carries two CGFs, atom `B` carries one, so global index 2 belongs to `B`
at local offset 0. -/
def cgfA0 : CGF := ⟨([1], [1]), "S"⟩

def cgfA1 : CGF := ⟨([1], [2]), "Px"⟩

def cgfB0 : CGF := ⟨([1], [3]), "Py"⟩

def atomA : AtomXYZ := ⟨"A", fun _ => 0⟩

def atomB : AtomXYZ := ⟨"B", fun _ => 1⟩

def dictAB : String → List CGF := fun s =>
  if s = "A" then [cgfA0, cgfA1] else if s = "B" then [cgfB0] else []

/-- C1: the basis-index lookup is NOT correct for every geometry and basis
mapping.  On the two-atom molecule `[A, B]` with blocks of sizes 2 and 1,
the global index `i = 2` is owned by atom `B` with local offset 0 — the
spec lookup returns `B`'s CGF — but `lookup_cgf` resolves the offset into
the FIRST atom's basis list (`dictCGFs[atoms[0].symbol][index]`) and
returns atom `A`'s first CGF instead, while reporting atom `B`'s
coordinate. -/
theorem lookup_cgf_mixed_basis_bug :
    lookup_cgf [atomA, atomB] dictAB 2 = some (atomB.xyz, cgfA0) ∧
    lookup_cgf_spec [atomA, atomB] dictAB 2 = some (atomB.xyz, cgfB0) ∧
    cgfA0 ≠ cgfB0 := by
  refine ⟨by decide, by decide, by decide⟩

/-! ## Projection and overlap-builder algebra -/

/-- C5: the MO projection computed by `calculate_overlap` is exactly
`C0ᵗ · S · C1`; as a Lean function of its matrix arguments it is pure by
construction, mirroring the source, which only calls the allocating
`np.transpose`/`np.dot` and never mutates an argument. -/
theorem calculate_overlap_is_projection {dim nst : ℕ}
    (suv : Matrix (Fin dim) (Fin dim) ℚ)
    (css0 css1 : Matrix (Fin dim) (Fin nst) ℚ) :
    calculate_overlap suv css0 css1 = css0ᵀ * suv * css1 :=
  (Matrix.mul_assoc _ _ _).symm

/-- Projecting through the transposed overlap with the coefficient matrices
swapped yields the transposed projection. -/
theorem calculate_overlap_transpose {dim nst : ℕ}
    (suv : Matrix (Fin dim) (Fin dim) ℚ)
    (css0 css1 : Matrix (Fin dim) (Fin nst) ℚ) :
    calculate_overlap suvᵀ css1 css0 = (calculate_overlap suv css0 css1)ᵀ := by
  unfold calculate_overlap
  rw [Matrix.transpose_mul, Matrix.transpose_mul, Matrix.transpose_transpose,
    Matrix.mul_assoc]

/-- C6: with a transformation matrix the overlap builder returns
`T · S · Tᵗ` where `S` is the raw Cartesian matrix it returns under the
null transform; with the null transform it returns `S` itself. -/
theorem calcOverlapMtx_spherical_transform (fops : FloatOps) (osm : OSMFun)
    (dictCGFs : String → List CGF) (dim : ℕ)
    (T : Matrix (Fin dim) (Fin dim) ℚ) (mol0 mol1 : List AtomXYZ)
    (S : Matrix (Fin dim) (Fin dim) ℚ)
    (h : calcOverlapMtx fops osm dictCGFs dim none mol0 mol1 = some S) :
    calcOverlapMtx fops osm dictCGFs dim (some T) mol0 mol1 =
      some (T * S * Tᵀ) := by
  unfold calcOverlapMtx at h ⊢
  cases hb : buildRowList fops osm dictCGFs dim mol0 mol1 with
  | none => rw [hb] at h; simp at h
  | some xss =>
    simp only [Option.map_some', Option.some.injEq] at h ⊢
    rw [hb] at h
    simp only [Option.map_some', Option.some.injEq] at h
    rw [h]

/-- Unfolding of the coupling estimator when both overlap builds succeed
and `dt ≠ 0`: the result is exactly the spec's three-point combination of
the four `project` matrices. -/
theorem calculateCoupling3Points_eq_spec (fops : FloatOps) (osm : OSMFun)
    (mol0 mol1 mol2 : List AtomXYZ) (dictCGFs : String → List CGF) {nst : ℕ}
    (css0 css1 css2 : Matrix (Fin (molDim dictCGFs mol0)) (Fin nst) ℚ)
    (dt : ℚ)
    (trans_mtx : Option (Matrix (Fin (molDim dictCGFs mol0))
      (Fin (molDim dictCGFs mol0)) ℚ))
    (S0 S1 : Matrix (Fin (molDim dictCGFs mol0)) (Fin (molDim dictCGFs mol0)) ℚ)
    (h0 : calcOverlapMtx fops osm dictCGFs (molDim dictCGFs mol0) trans_mtx
      mol0 mol1 = some S0)
    (h1 : calcOverlapMtx fops osm dictCGFs (molDim dictCGFs mol0) trans_mtx
      mol1 mol2 = some S1)
    (hdt : dt ≠ 0) :
    calculateCoupling3Points fops osm mol0 mol1 mol2 dictCGFs css0 css1 css2
      dt trans_mtx = some (estimateCoupling_spec S0 S1 css0 css1 css2 dt) := by
  unfold calculateCoupling3Points
  rw [h0, h1]
  simp only [Option.some_bind, if_neg hdt]
  unfold estimateCoupling_spec calculate_overlap
  simp only [Option.some.injEq, Matrix.mul_assoc]

/-- C4: the coupling estimator computes exactly
`[3·(Sji_t1 − Sij_t1) + (Sij_t0 − Sji_t0)] / (4·dt)` with
`Sji_t0 = project(S0, Cprev, Ccurr)`, `Sij_t0 = project(S0ᵗ, Ccurr, Cprev)`,
`Sji_t1 = project(S1, Ccurr, Cnext)`, `Sij_t1 = project(S1ᵗ, Cnext, Ccurr)`,
where `S0`, `S1` are the two returned overlap matrices. -/
theorem calculateCoupling3Points_formula (fops : FloatOps) (osm : OSMFun)
    (mol0 mol1 mol2 : List AtomXYZ) (dictCGFs : String → List CGF) {nst : ℕ}
    (css0 css1 css2 : Matrix (Fin (molDim dictCGFs mol0)) (Fin nst) ℚ)
    (dt : ℚ)
    (trans_mtx : Option (Matrix (Fin (molDim dictCGFs mol0))
      (Fin (molDim dictCGFs mol0)) ℚ))
    (S0 S1 : Matrix (Fin (molDim dictCGFs mol0)) (Fin (molDim dictCGFs mol0)) ℚ)
    (h0 : calcOverlapMtx fops osm dictCGFs (molDim dictCGFs mol0) trans_mtx
      mol0 mol1 = some S0)
    (h1 : calcOverlapMtx fops osm dictCGFs (molDim dictCGFs mol0) trans_mtx
      mol1 mol2 = some S1)
    (hdt : dt ≠ 0) :
    calculateCoupling3Points fops osm mol0 mol1 mol2 dictCGFs css0 css1 css2
      dt trans_mtx =
      some ((1 / (4 * dt)) •
        ((3 : ℚ) • (css1ᵀ * S1 * css2 - css2ᵀ * S1ᵀ * css1) +
          (css1ᵀ * S0ᵀ * css0 - css0ᵀ * S0 * css1))) := by
  rw [calculateCoupling3Points_eq_spec fops osm mol0 mol1 mol2 dictCGFs
    css0 css1 css2 dt trans_mtx S0 S1 h0 h1 hdt]
  unfold estimateCoupling_spec
  rfl

/-- C3: whenever the estimator returns a matrix `M` (any geometries, any
coefficients, any transform, `dt ≠ 0`), `M` is exactly anti-symmetric with
an exactly zero diagonal, because each `Sij` projection is the transpose of
the corresponding `Sji` projection. -/
theorem calculateCoupling3Points_antisymmetric (fops : FloatOps)
    (osm : OSMFun) (mol0 mol1 mol2 : List AtomXYZ)
    (dictCGFs : String → List CGF) {nst : ℕ}
    (css0 css1 css2 : Matrix (Fin (molDim dictCGFs mol0)) (Fin nst) ℚ)
    (dt : ℚ)
    (trans_mtx : Option (Matrix (Fin (molDim dictCGFs mol0))
      (Fin (molDim dictCGFs mol0)) ℚ))
    (M : Matrix (Fin nst) (Fin nst) ℚ) (hdt : dt ≠ 0)
    (h : calculateCoupling3Points fops osm mol0 mol1 mol2 dictCGFs
      css0 css1 css2 dt trans_mtx = some M) :
    M = -Mᵀ ∧ Matrix.diag M = 0 := by
  unfold calculateCoupling3Points at h
  cases h0 : calcOverlapMtx fops osm dictCGFs (molDim dictCGFs mol0) trans_mtx
      mol0 mol1 with
  | none => rw [h0] at h; simp at h
  | some S0 =>
  cases h1 : calcOverlapMtx fops osm dictCGFs (molDim dictCGFs mol0) trans_mtx
      mol1 mol2 with
  | none => rw [h0, h1] at h; simp at h
  | some S1 =>
  rw [h0, h1] at h
  simp only [Option.some_bind, if_neg hdt, Option.some.injEq] at h
  rw [calculate_overlap_transpose S1 css1 css2,
    calculate_overlap_transpose S0 css0 css1] at h
  set A := calculate_overlap S1 css1 css2 with hA
  set B := calculate_overlap S0 css0 css1 with hB
  have hanti : M = -Mᵀ := by
    rw [← h]
    rw [Matrix.transpose_smul, Matrix.transpose_add, Matrix.transpose_smul,
      Matrix.transpose_sub, Matrix.transpose_sub, Matrix.transpose_transpose,
      Matrix.transpose_transpose]
    rw [← smul_neg]
    congr 1
    rw [neg_add, neg_sub, smul_sub, smul_sub]
    abel
  refine ⟨hanti, ?_⟩
  funext i
  have h2 := congrFun (congrFun hanti i) i
  simp only [Matrix.neg_apply, Matrix.transpose_apply] at h2
  have : M i i = 0 := by linarith
  simpa [Matrix.diag] using this

/-! ## Static single-atom systems -/

/-- Over a single-atom, single-CGF system the overlap build succeeds (the
basis indexing and the stacking length check are satisfied) and the
resulting 1×1 matrix is symmetric. -/
theorem calcOverlapMtx_single_static (fops : FloatOps) (osm : OSMFun)
    (a : AtomXYZ) (dictCGFs : String → List CGF) (cgf : CGF)
    (hdict : dictCGFs a.symbol = [cgf])
    (hlen : cgf.primitives.2.length = cgf.primitives.1.length) :
    ∃ S : Matrix (Fin (molDim dictCGFs [a])) (Fin (molDim dictCGFs [a])) ℚ,
      calcOverlapMtx fops osm dictCGFs (molDim dictCGFs [a]) none [a] [a] =
        some S ∧ Sᵀ = S := by
  have hd : molDim dictCGFs [a] = 1 := by simp [molDim, hdict]
  haveI : Subsingleton (Fin (molDim dictCGFs [a])) := by
    rw [hd]; infer_instance
  obtain ⟨v, hv⟩ : ∃ v, apply_contraction fops osm a.xyz a.xyz cgf.orbType
      cgf.orbType cgf.primitives cgf.primitives = some v := by
    unfold apply_contraction
    rw [if_pos ⟨rfl, hlen, hlen⟩]
    exact ⟨_, rfl⟩
  have hrow : buildRowList fops osm dictCGFs (molDim dictCGFs [a]) [a] [a] =
      some [[v]] := by
    rw [hd]
    simp [buildRowList, List.range_succ, lookup_cgf, pyGet, hdict,
      calc_overlap_row, calc_overlap_atom, hv]
  refine ⟨Matrix.of fun i j =>
      ((([[v]] : List (List ℚ)).get? (i : ℕ)).bind fun r =>
        r.get? (j : ℕ)).getD 0, ?_, ?_⟩
  · unfold calcOverlapMtx
    rw [hrow]
    rfl
  · ext i j
    rw [Matrix.transpose_apply, Subsingleton.elim i j]

/-- Any three identical single-atom frames with identical coefficients give
the zero coupling matrix: the two overlap builds coincide and the 1×1
overlap is symmetric, so all four projections are equal and the three-point
combination collapses. -/
theorem coupling_static_zero (fops : FloatOps) (osm : OSMFun) (a : AtomXYZ)
    (dictCGFs : String → List CGF) (cgf : CGF)
    (hdict : dictCGFs a.symbol = [cgf])
    (hlen : cgf.primitives.2.length = cgf.primitives.1.length)
    {nst : ℕ} (css : Matrix (Fin (molDim dictCGFs [a])) (Fin nst) ℚ)
    (dt : ℚ) (hdt : dt ≠ 0) :
    calculateCoupling3Points fops osm [a] [a] [a] dictCGFs css css css dt
      none = some 0 := by
  obtain ⟨S, hS, hsymm⟩ :=
    calcOverlapMtx_single_static fops osm a dictCGFs cgf hdict hlen
  rw [calculateCoupling3Points_eq_spec fops osm [a] [a] [a] dictCGFs
    css css css dt none S S hS hS hdt]
  unfold estimateCoupling_spec
  rw [hsymm]
  simp

/-- C9: a single-atom system with one S-type CGF (one primitive,
coefficient 1, any positive exponent), zero displacement across the three
frames, identical coefficient matrices and `dt = 1` yields exactly the
all-zeros coupling matrix. -/
theorem calculateCoupling3Points_static_zero (fops : FloatOps) (osm : OSMFun)
    (a : AtomXYZ) (e : ℚ) (_he : 0 < e) (dictCGFs : String → List CGF)
    (hdict : dictCGFs a.symbol = [⟨([1], [e]), "S"⟩])
    {nst : ℕ} (css : Matrix (Fin (molDim dictCGFs [a])) (Fin nst) ℚ) :
    calculateCoupling3Points fops osm [a] [a] [a] dictCGFs css css css 1
      none = some 0 :=
  coupling_static_zero fops osm a dictCGFs _ hdict rfl css 1 one_ne_zero

/-- C7 (amended): `calculateCoupling3Points` performs no validation of
`dt`.  For any `dt < 0` it silently computes and returns the usual
three-point combination scaled by `1 / (4·dt)`; no invalid-temporal-input
error exists on that path (only `dt = 0` aborts, with Python's
ZeroDivisionError from `1.0 / (4.0 * dt)`). -/
theorem calculateCoupling3Points_no_dt_validation (fops : FloatOps)
    (osm : OSMFun) (mol0 mol1 mol2 : List AtomXYZ)
    (dictCGFs : String → List CGF) {nst : ℕ}
    (css0 css1 css2 : Matrix (Fin (molDim dictCGFs mol0)) (Fin nst) ℚ)
    (dt : ℚ) (hdt : dt < 0)
    (trans_mtx : Option (Matrix (Fin (molDim dictCGFs mol0))
      (Fin (molDim dictCGFs mol0)) ℚ))
    (S0 S1 : Matrix (Fin (molDim dictCGFs mol0)) (Fin (molDim dictCGFs mol0)) ℚ)
    (h0 : calcOverlapMtx fops osm dictCGFs (molDim dictCGFs mol0) trans_mtx
      mol0 mol1 = some S0)
    (h1 : calcOverlapMtx fops osm dictCGFs (molDim dictCGFs mol0) trans_mtx
      mol1 mol2 = some S1) :
    calculateCoupling3Points fops osm mol0 mol1 mol2 dictCGFs css0 css1 css2
      dt trans_mtx = some (estimateCoupling_spec S0 S1 css0 css1 css2 dt) :=
  calculateCoupling3Points_eq_spec fops osm mol0 mol1 mol2 dictCGFs
    css0 css1 css2 dt trans_mtx S0 S1 h0 h1 (ne_of_lt hdt)

/-! ## Concrete instances -/

/-- Concrete float stand-ins for witnesses: every operation returns 1. -/
def fopsW : FloatOps := ⟨fun _ => 1, fun _ => 1, 1⟩

/-- Concrete primitive evaluator for witnesses: constantly 1. -/
def osmW : OSMFun := fun _ _ _ _ _ _ _ _ => 1

/-- The zero 3-vector. -/
def zq : Fin 3 → ℚ := fun _ => 0

/-- A single-atom witness system: one Cd atom at the origin. -/
def atomW : AtomXYZ := ⟨"Cd", zq⟩

/-- Minimal basis for the witness system: one S-type CGF with one primitive
of coefficient 1 and exponent 1 for every element symbol. -/
def dictW : String → List CGF := fun _ => [⟨([1], [1]), "S"⟩]

/-- A 1×nMO coefficient matrix for the witness system. -/
def cssW : Matrix (Fin (molDim dictW [atomW])) (Fin 1) ℚ :=
  Matrix.of fun _ _ => 1

/-- The raw overlap matrix of the witness system (all evaluator calls
return 1, both contraction sums have a single term 1·1·1). -/
def suvW : Matrix (Fin (molDim dictW [atomW])) (Fin (molDim dictW [atomW])) ℚ :=
  Matrix.of fun _ _ => 1

/-- A concrete 1×1 transformation matrix. -/
def transW : Matrix (Fin (molDim dictW [atomW])) (Fin (molDim dictW [atomW])) ℚ :=
  Matrix.of fun _ _ => 2

/-- On the witness system the raw overlap build succeeds and produces the
all-ones 1×1 matrix. -/
theorem calcOverlapMtxW :
    calcOverlapMtx fopsW osmW dictW (molDim dictW [atomW]) none
      [atomW] [atomW] = some suvW := by
  have hrow : buildRowList fopsW osmW dictW (molDim dictW [atomW])
      [atomW] [atomW] = some [[1]] := by
    simp [buildRowList, molDim, List.range_succ, lookup_cgf, pyGet, dictW,
      atomW, calc_overlap_row, calc_overlap_atom, apply_contraction,
      sab_unfolded, osmW, fopsW]
  unfold calcOverlapMtx
  rw [hrow]
  simp only [Option.map_some', Option.some.injEq]
  ext i j
  have hi : (i : ℕ) = 0 := Nat.lt_one_iff.mp i.isLt
  have hj : (j : ℕ) = 0 := Nat.lt_one_iff.mp j.isLt
  simp [suvW, hi, hj]

/-- C2: the contraction-level overlap computed by `apply_contraction`
does NOT equal the full double sum over all primitive pairs.  With two
primitives per CGF, all contraction coefficients 1 and a constant-1
evaluator, the code's positionally zipped sum yields 2 while the sum over
all 2×2 primitive pairs is 4; and for CGFs with different numbers of
primitives the code raises (`np.stack` ValueError) instead of being
well-defined. -/
theorem apply_contraction_zip_bug :
    apply_contraction fopsW osmW zq zq "S" "S" ([1, 1], [1, 2])
        ([1, 1], [1, 2]) = some 2 ∧
    apply_contraction_spec fopsW osmW zq zq "S" "S" ([1, 1], [1, 2])
        ([1, 1], [1, 2]) = 4 ∧
    apply_contraction fopsW osmW zq zq "S" "S" ([1], [1])
        ([1, 1], [1, 2]) = none := by
  refine ⟨?_, ?_, ?_⟩
  · simp [apply_contraction, sab_unfolded, osmW, fopsW]
    norm_num
  · simp [apply_contraction_spec, sab_unfolded, osmW, fopsW]
    norm_num
  · simp [apply_contraction]

/-- C7 counterexample: at `dt = -1` (so `dt ≤ 0`) the estimator raises no
invalid-temporal-input error — it computes and returns a coupling matrix. -/
theorem calculateCoupling3Points_accepts_negative_dt :
    calculateCoupling3Points fopsW osmW [atomW] [atomW] [atomW] dictW
      cssW cssW cssW (-1) none = some 0 :=
  coupling_static_zero fopsW osmW atomW dictW _ rfl rfl cssW (-1)
    (by norm_num)

/-! ## Witnesses -/

/-- Witness for C3 at a concrete single-atom input with `dt = 2`. -/
theorem calculateCoupling3Points_antisymmetric_witness :
    (0 : Matrix (Fin 1) (Fin 1) ℚ) = -(0 : Matrix (Fin 1) (Fin 1) ℚ)ᵀ ∧
    Matrix.diag (0 : Matrix (Fin 1) (Fin 1) ℚ) = 0 :=
  calculateCoupling3Points_antisymmetric fopsW osmW [atomW] [atomW] [atomW]
    dictW cssW cssW cssW 2 none 0 (by norm_num)
    (coupling_static_zero fopsW osmW atomW dictW _ rfl rfl cssW 2
      (by norm_num))

/-- Witness for C4 at the concrete single-atom input with `dt = 2`. -/
theorem calculateCoupling3Points_formula_witness :
    calculateCoupling3Points fopsW osmW [atomW] [atomW] [atomW] dictW
      cssW cssW cssW 2 none =
      some (((1 : ℚ) / (4 * 2)) •
        ((3 : ℚ) • (cssWᵀ * suvW * cssW - cssWᵀ * suvWᵀ * cssW) +
          (cssWᵀ * suvWᵀ * cssW - cssWᵀ * suvW * cssW))) :=
  calculateCoupling3Points_formula fopsW osmW [atomW] [atomW] [atomW] dictW
    cssW cssW cssW 2 none suvW suvW calcOverlapMtxW calcOverlapMtxW
    (by norm_num)

/-- Witness for C6 at the concrete single-atom input. -/
theorem calcOverlapMtx_spherical_transform_witness :
    calcOverlapMtx fopsW osmW dictW (molDim dictW [atomW]) (some transW)
      [atomW] [atomW] = some (transW * suvW * transWᵀ) :=
  calcOverlapMtx_spherical_transform fopsW osmW dictW
    (molDim dictW [atomW]) transW [atomW] [atomW] suvW calcOverlapMtxW

/-- Witness for the amended C7 at the concrete single-atom input with
`dt = -2`. -/
theorem calculateCoupling3Points_no_dt_validation_witness :
    calculateCoupling3Points fopsW osmW [atomW] [atomW] [atomW] dictW
      cssW cssW cssW (-2) none =
      some (estimateCoupling_spec suvW suvW cssW cssW cssW (-2)) :=
  calculateCoupling3Points_no_dt_validation fopsW osmW [atomW] [atomW]
    [atomW] dictW cssW cssW cssW (-2) (by norm_num) none suvW suvW
    calcOverlapMtxW calcOverlapMtxW

/-- Witness for C9 at the concrete single-atom input. -/
theorem calculateCoupling3Points_static_zero_witness :
    calculateCoupling3Points fopsW osmW [atomW] [atomW] [atomW] dictW
      cssW cssW cssW 1 none = some 0 :=
  calculateCoupling3Points_static_zero fopsW osmW atomW 1 (by norm_num)
    dictW rfl cssW

/-- A uniform two-atom witness molecule: two H atoms, two CGFs each. -/
def atomH0 : AtomXYZ := ⟨"H", fun _ => 0⟩

def atomH1 : AtomXYZ := ⟨"H", fun _ => 1⟩

def dictH : String → List CGF := fun _ => [⟨([1], [1]), "S"⟩, ⟨([1], [2]), "Px"⟩]

/-- Witness for C10: on the uniform H₂ molecule the code lookup and the
spec lookup agree at global index 3 (second atom, second CGF). -/
theorem lookup_cgf_uniform_symbols_correct_witness :
    lookup_cgf [atomH0, atomH1] dictH 3 =
      lookup_cgf_spec [atomH0, atomH1] dictH (3 : ℤ).toNat :=
  lookup_cgf_uniform_symbols_correct dictH "H" [atomH0, atomH1]
    (by decide) 3 (by norm_num) (by decide)

end QmflowsNAMD
